import Mathlib

/-!
Verification of the gesture-recognition pipeline of this repository.

The embedding models the hand-written signal/decision code:
the sliding frame window, the confidence threshold, the stability
(consistency) gate with cooldown, the one-euro adaptive filter bank and the
landmark-to-feature-vector conversion.  JavaScript number arithmetic is
modelled by exact rational arithmetic; JavaScript NaN is modelled explicitly
where the code branches on it; Date.now timestamps are naturals (ms).
External collaborators (the TensorFlow model and the MediaPipe detector) are
modelled as inputs: the classifier output is the probability list handed to
the code under verification.
-/

/-- A recognized-gesture event: the payload returned by the pipelines'
predict methods (an action label plus the winning confidence). -/
structure Event where
  action : String
  confidence : ℚ
deriving DecidableEq, Repr

/-- The fixed class list of the classifier, from the source. -/
def ACTION_CLASSES : List String := ["hello", "thanks", "iloveyou"]

/-- The classifier's required sequence length (frames per window). -/
def SEQUENCE_LENGTH : ℕ := 30

/-- Feature vector length used by the repository. -/
def FEATURE_SIZE : ℕ := 1662

/-- The argmax loop of src/lib/actionLstmPipeline.ts (and identically the
part_004 variant): maxIdx starts at 0 with maxProb = probs[0], and the loop
scans from index 1 taking strictly greater entries. -/
def argmaxSrc (probs : List ℚ) : ℕ × ℚ :=
  (probs.enum.drop 1).foldl (fun acc ip => if acc.2 < ip.2 then ip else acc)
    (0, probs.headD 0)

/-- The argmax loop of the part_005 (stability gate) variant: maxIdx starts
at 0 with maxProb = 0, and the loop scans from index 0 taking strictly
greater entries. -/
def argmaxGate (probs : List ℚ) : ℕ × ℚ :=
  probs.enum.foldl (fun acc ip => if acc.2 < ip.2 then ip else acc) (0, 0)

/-! ## The shipped pipeline: src/src/lib/actionLstmPipeline.ts -/

/-- Confidence threshold of the shipped pipeline. -/
def CONFIDENCE_THRESHOLD : ℚ := mkRat 85 100

/-- State of the shipped ActionLstmPipeline: whether the model loaded, and
the sliding frame buffer of feature vectors. -/
structure ActionLstmPipeline where
  modelLoaded : Bool
  frameBuffer : List (List ℚ)
deriving DecidableEq, Repr

/-- pushFrame: append the new vector; if length exceeds SEQUENCE_LENGTH,
shift (drop the head, i.e. the oldest vector). -/
def ActionLstmPipeline.pushFrame (s : ActionLstmPipeline) (features : List ℚ) :
    ActionLstmPipeline :=
  { s with frameBuffer :=
      if SEQUENCE_LENGTH < (s.frameBuffer ++ [features]).length
      then (s.frameBuffer ++ [features]).tail
      else s.frameBuffer ++ [features] }

/-- predict: returns null when the model is absent or the window is not
full; otherwise runs the external classifier (whose output probability list
is the probs argument), takes the argmax, and returns an event only when the
winning probability reaches the threshold.  The state is threaded through so
that any mutation performed by the method would be visible. -/
def ActionLstmPipeline.predict (s : ActionLstmPipeline) (probs : List ℚ) :
    Option Event × ActionLstmPipeline :=
  if ¬ s.modelLoaded ∨ s.frameBuffer.length < SEQUENCE_LENGTH then (none, s)
  else if CONFIDENCE_THRESHOLD ≤ (argmaxSrc probs).2 then
    (some ⟨ACTION_CLASSES.getD (argmaxSrc probs).1 "undefined", (argmaxSrc probs).2⟩, s)
  else (none, s)

/-- clearBuffer of the shipped pipeline: frameBuffer = []. -/
def ActionLstmPipeline.clearBuffer (s : ActionLstmPipeline) : ActionLstmPipeline :=
  { s with frameBuffer := [] }

/-- External operations on the shipped pipeline's window. -/
inductive BufOp where
  | push : List ℚ → BufOp
  | clear : BufOp

/-- Apply one buffer operation. -/
def ActionLstmPipeline.applyOp (s : ActionLstmPipeline) : BufOp → ActionLstmPipeline
  | BufOp.push f => s.pushFrame f
  | BufOp.clear => s.clearBuffer

/-- The pipeline as first constructed (model not yet loaded, empty buffer). -/
def initialPipeline : ActionLstmPipeline := ⟨false, []⟩

/-- Run a sequence of pushFrame/clearBuffer calls from the initial state. -/
def runOps (ops : List BufOp) : ActionLstmPipeline :=
  ops.foldl ActionLstmPipeline.applyOp initialPipeline

/-- The vectors pushed since the last clearBuffer, in push order. -/
def pushesSinceClear (ops : List BufOp) : List (List ℚ) :=
  ops.foldl (fun acc op => match op with
    | BufOp.push f => acc ++ [f]
    | BufOp.clear => []) []

/-- The at most n most recent elements of a list, oldest first. -/
def lastN (n : ℕ) (xs : List α) : List α := xs.drop (xs.length - n)

/-! ## The part_004 variant: per-label cooldown (anti-repeat) -/

/-- Cooldown between detections of the same label (part_004). -/
def COOLDOWN_MS : ℕ := 2000

/-- Confidence threshold of the part_004 variant. -/
def P4_CONFIDENCE_THRESHOLD : ℚ := mkRat 70 100

/-- State of the part_004 ActionLstmPipeline: frame buffer plus the
anti-repeat record (last detected action, last detection time).  The
initial record is the empty string and time 0. -/
structure CooldownLstmPipeline where
  modelLoaded : Bool
  frameBuffer : List (List ℚ)
  lastDetectedAction : String
  lastDetectionTime : ℕ
deriving DecidableEq, Repr

/-- predict of the part_004 variant: threshold first, then the debounce:
if the winning action equals the last detected one and the cooldown has not
elapsed, return null leaving the record untouched; otherwise record
(action, now) and return the event. -/
def CooldownLstmPipeline.predict (s : CooldownLstmPipeline) (probs : List ℚ)
    (now : ℕ) : Option Event × CooldownLstmPipeline :=
  if ¬ s.modelLoaded ∨ s.frameBuffer.length < SEQUENCE_LENGTH then (none, s)
  else if P4_CONFIDENCE_THRESHOLD ≤ (argmaxSrc probs).2 then
    if ACTION_CLASSES.getD (argmaxSrc probs).1 "undefined" = s.lastDetectedAction
        ∧ now - s.lastDetectionTime < COOLDOWN_MS then
      (none, s)
    else
      (some ⟨ACTION_CLASSES.getD (argmaxSrc probs).1 "undefined", (argmaxSrc probs).2⟩,
        { s with lastDetectedAction := ACTION_CLASSES.getD (argmaxSrc probs).1 "undefined",
                 lastDetectionTime := now })
  else (none, s)

/-- clearBuffer of the part_004 variant: clears the frame buffer and the
whole anti-repeat record. -/
def CooldownLstmPipeline.clearBuffer (s : CooldownLstmPipeline) : CooldownLstmPipeline :=
  { s with frameBuffer := [], lastDetectedAction := "", lastDetectionTime := 0 }

/-- One classifier observation handed to predict: the probability
distribution produced by the model for that tick, and the tick's Date.now. -/
structure Obs where
  probs : List ℚ
  time : ℕ

/-- Run a list of observations through the part_004 predict, collecting the
emitted events with their emission times. -/
def runCooldown (s : CooldownLstmPipeline) : List Obs → List (Event × ℕ) × CooldownLstmPipeline
  | [] => ([], s)
  | o :: rest =>
    (match (s.predict o.probs o.time).1 with
      | some ev => (ev, o.time) :: (runCooldown (s.predict o.probs o.time).2 rest).1
      | none => (runCooldown (s.predict o.probs o.time).2 rest).1,
     (runCooldown (s.predict o.probs o.time).2 rest).2)

/-- The (label, time) of the most recent emission in a list of emitted
events, starting from an initial record. -/
def lastRec (init : String × ℕ) : List (Event × ℕ) → String × ℕ
  | [] => init
  | (ev, t) :: rest => lastRec (ev.action, t) rest

/-! ## The part_005 variant: stability window plus cooldown -/

/-- A JavaScript number at the feature boundary: either an ordinary number
or NaN. -/
inductive JsNum where
  | num : ℚ → JsNum
  | nan : JsNum
deriving DecidableEq, Repr

/-- The isNaN test of the part_005 pushFrame. -/
def JsNum.isNaN : JsNum → Bool
  | JsNum.nan => true
  | JsNum.num _ => false

/-- The per-entry sanitization of the part_005 pushFrame:
isNaN v goes to 0, everything else passes through. -/
def cleanFeature (v : JsNum) : JsNum :=
  if v.isNaN then JsNum.num 0 else v

/-- Confidence threshold of the part_005 variant. -/
def GATE_THRESHOLD : ℚ := mkRat 85 100

/-- Consistency window length of the part_005 variant. -/
def STABILITY_WINDOW : ℕ := 8

/-- State of the part_005 ActionLstmPipeline: frame buffer, the stability
(consistency) label ring buffer, and the last-trigger record.  Initially the
buffers are empty, lastTriggeredAction is null and lastTriggerTime is 0. -/
structure StabilityLstmPipeline where
  modelLoaded : Bool
  frameBuffer : List (List JsNum)
  stabilityBuffer : List String
  lastTriggeredAction : Option String
  lastTriggerTime : ℕ
deriving DecidableEq, Repr

/-- pushFrame of the part_005 variant: sanitize NaN entries to 0, append,
and evict the oldest frame when the window exceeds SEQUENCE_LENGTH. -/
def StabilityLstmPipeline.pushFrame (s : StabilityLstmPipeline)
    (features : List JsNum) : StabilityLstmPipeline :=
  { s with frameBuffer :=
      if SEQUENCE_LENGTH < (s.frameBuffer ++ [features.map cleanFeature]).length
      then (s.frameBuffer ++ [features.map cleanFeature]).tail
      else s.frameBuffer ++ [features.map cleanFeature] }

/-- Push a whole list of frames in order. -/
def StabilityLstmPipeline.pushFrames (s : StabilityLstmPipeline)
    (fs : List (List JsNum)) : StabilityLstmPipeline :=
  fs.foldl StabilityLstmPipeline.pushFrame s

/-- The label of the winning class this tick (ACTION_CLASSES[maxIdx]). -/
def StabilityLstmPipeline.currentAction (probs : List ℚ) : String :=
  ACTION_CLASSES.getD (argmaxGate probs).1 "undefined"

/-- The label the gate pushes into the stability buffer: the winning class
when its probability reaches the threshold, the sentinel "searching"
otherwise. -/
def StabilityLstmPipeline.observedLabel (probs : List ℚ) : String :=
  if GATE_THRESHOLD ≤ (argmaxGate probs).2 then StabilityLstmPipeline.currentAction probs
  else "searching"

/-- The shift applied after pushing: drop the oldest label once the buffer
exceeds STABILITY_WINDOW. -/
def trimBuffer (sb : List String) : List String :=
  if STABILITY_WINDOW < sb.length then sb.tail else sb

/-- The stability buffer as it stands after this tick's push and trim. -/
def observedBuffer (s : StabilityLstmPipeline) (probs : List ℚ) : List String :=
  trimBuffer (s.stabilityBuffer ++ [StabilityLstmPipeline.observedLabel probs])

/-- predict of the part_005 variant: window-full check, then the global
1500 ms cooldown, then classifier argmax, the stability-buffer push/trim,
the consistency check (every buffered label equals the current winning
label), the threshold check, and the anti-repeat condition (different label
than the last trigger, or more than 3000 ms elapsed).  On trigger the
stability buffer is cleared and the trigger record updated. -/
def StabilityLstmPipeline.predict (s : StabilityLstmPipeline) (probs : List ℚ)
    (now : ℕ) : Option Event × StabilityLstmPipeline :=
  if ¬ s.modelLoaded ∨ s.frameBuffer.length < SEQUENCE_LENGTH then (none, s)
  else if now - s.lastTriggerTime < 1500 then (none, s)
  else if (∀ l ∈ observedBuffer s probs, l = StabilityLstmPipeline.currentAction probs)
      ∧ GATE_THRESHOLD ≤ (argmaxGate probs).2 then
    if s.lastTriggeredAction ≠ some (StabilityLstmPipeline.currentAction probs)
        ∨ 3000 < now - s.lastTriggerTime then
      (some ⟨StabilityLstmPipeline.currentAction probs, (argmaxGate probs).2⟩,
        { s with stabilityBuffer := [],
                 lastTriggeredAction := some (StabilityLstmPipeline.currentAction probs),
                 lastTriggerTime := now })
    else (none, { s with stabilityBuffer := observedBuffer s probs })
  else (none, { s with stabilityBuffer := observedBuffer s probs })

/-- clearBuffer of the part_005 variant: clears the frame buffer, the
stability buffer and lastTriggeredAction.  It does not touch
lastTriggerTime. -/
def StabilityLstmPipeline.clearBuffer (s : StabilityLstmPipeline) : StabilityLstmPipeline :=
  { s with frameBuffer := [], stabilityBuffer := [], lastTriggeredAction := none }

/-! ## The detector boundary: HolisticDetector.resultsToFeatures -/

/-- One MediaPipe landmark as consumed by resultsToFeatures.  The
visibility field may be absent (undefined), which the code maps to 0 via
the nullish-coalescing operator; a NaN visibility is not caught by it. -/
structure Landmark where
  x : JsNum
  y : JsNum
  z : JsNum
  visibility : Option JsNum
deriving DecidableEq, Repr

/-- A MediaPipe Holistic result: each keypoint group may be absent, and an
individual entry of a group's list may be absent. -/
structure HolisticResults where
  poseLandmarks : Option (List (Option Landmark))
  faceLandmarks : Option (List (Option Landmark))
  leftHandLandmarks : Option (List (Option Landmark))
  rightHandLandmarks : Option (List (Option Landmark))
deriving DecidableEq, Repr

/-- The per-point slot width: x, y, z, and a visibility slot when used. -/
def slotWidth (hasVis : Bool) : ℕ := 3 + (if hasVis then 1 else 0)

/-- The per-landmark writes of the fill closure: a present landmark writes
its raw coordinates (and its visibility, defaulting to 0 only when the
field is undefined); an absent landmark leaves its zero-initialized slot. -/
def landmarkSlot (hasVis : Bool) (lm : Option Landmark) : List JsNum :=
  match lm with
  | some l => [l.x, l.y, l.z] ++ (if hasVis then [l.visibility.getD (JsNum.num 0)] else [])
  | none => List.replicate (slotWidth hasVis) (JsNum.num 0)

/-- The fill closure of resultsToFeatures: an absent or empty group leaves
its whole zero-initialized range; otherwise each of the count points writes
its slot. -/
def fillGroup (landmarks : Option (List (Option Landmark))) (count : ℕ)
    (hasVis : Bool) : List JsNum :=
  match landmarks with
  | some lms =>
    if lms.length = 0 then List.replicate (count * slotWidth hasVis) (JsNum.num 0)
    else ((List.range count).map (fun i => landmarkSlot hasVis (lms.getD i none))).flatten
  | none => List.replicate (count * slotWidth hasVis) (JsNum.num 0)

/-- resultsToFeatures: pose (33 points, with visibility), face (468),
left hand (21), right hand (21), written in this fixed order. -/
def resultsToFeatures (r : HolisticResults) : List JsNum :=
  fillGroup r.poseLandmarks 33 true ++ fillGroup r.faceLandmarks 468 false ++
  fillGroup r.leftHandLandmarks 21 false ++ fillGroup r.rightHandLandmarks 21 false

/-! ## The adaptive filter bank: LowPassFilter, OneEuroFilter,
LandmarkSmoother (the part_003 iteration whose zero branch resets the
channel) -/

/-- The IEEE double value of Math.PI, as an exact rational. -/
def mathPI : ℚ := 884279719003555 / 281474976710656

/-- First-order low-pass filter state: last output y and last smoothed
value s (the code always keeps them equal; both are null before the first
sample). -/
structure LowPassFilter where
  y : Option ℚ
  s : Option ℚ
deriving DecidableEq, Repr

/-- LowPassFilter.filter: the first sample passes through; afterwards
s, y := alpha * value + (1 - alpha) * s. -/
def LowPassFilter.filter (f : LowPassFilter) (value alpha : ℚ) : ℚ × LowPassFilter :=
  match f.y with
  | none => (value, ⟨some value, some value⟩)
  | some _ =>
    let s1 := alpha * value + (1 - alpha) * (f.s.getD value)
    (s1, ⟨some s1, some s1⟩)

/-- The lastValue getter (y). -/
def LowPassFilter.lastValue (f : LowPassFilter) : Option ℚ := f.y

/-- LowPassFilter.reset: clears both memories. -/
def LowPassFilter.reset (_ : LowPassFilter) : LowPassFilter := ⟨none, none⟩

/-- The smoothing coefficient, as the code computes it from a sampling
frequency and a cutoff: te = 1/freq, tau = 1/(2 pi cutoff),
alpha = 1/(1 + tau/te). -/
def alphaQ (freq cutoff : ℚ) : ℚ :=
  let te := 1 / freq
  let tau := 1 / (2 * mathPI * cutoff)
  1 / (1 + tau / te)

/-- One-euro filter state: parameters, the two low-pass stages, and the
last observed timestamp (ms). -/
structure OneEuroFilter where
  freq : ℚ
  minCutoff : ℚ
  beta : ℚ
  dCutoff : ℚ
  xFilter : LowPassFilter
  dxFilter : LowPassFilter
  lastTime : Option ℚ
deriving DecidableEq, Repr

/-- A freshly constructed OneEuroFilter. -/
def OneEuroFilter.init (freq minCutoff beta dCutoff : ℚ) : OneEuroFilter :=
  ⟨freq, minCutoff, beta, dCutoff, ⟨none, none⟩, ⟨none, none⟩, none⟩

/-- The alpha method (reads the filter's current frequency estimate). -/
def OneEuroFilter.alpha (f : OneEuroFilter) (cutoff : ℚ) : ℚ :=
  alphaQ f.freq cutoff

/-- The frequency update at the head of filter: when a timestamp is given
and a previous one exists, recompute freq from the elapsed seconds if the
elapsed time is positive, else keep the previous estimate. -/
def OneEuroFilter.updateFreq (f : OneEuroFilter) (timestamp : Option ℚ) : ℚ :=
  match timestamp, f.lastTime with
  | some t, some lt => if 0 < (t - lt) / 1000 then 1 / ((t - lt) / 1000) else f.freq
  | _, _ => f.freq

/-- The raw derivative estimate: (value - previous filtered value) * freq,
or 0 on the very first sample. -/
def OneEuroFilter.dValueOf (f : OneEuroFilter) (value freq1 : ℚ) : ℚ :=
  match f.xFilter.lastValue with
  | some px => (value - px) * freq1
  | none => 0

/-- The adaptive cutoff: minCutoff + beta * |smoothed derivative|. -/
def OneEuroFilter.cutoffOf (f : OneEuroFilter) (value freq1 : ℚ) : ℚ :=
  f.minCutoff + f.beta * |(f.dxFilter.filter (f.dValueOf value freq1) (alphaQ freq1 f.dCutoff)).1|

/-- OneEuroFilter.filter: update the frequency estimate and lastTime (the
perfNow argument stands for the performance.now() fallback used when no
timestamp was ever seen), smooth the derivative with the dCutoff stage,
derive the adaptive cutoff, and smooth the value with it. -/
def OneEuroFilter.filter (f : OneEuroFilter) (value : ℚ) (timestamp : Option ℚ)
    (perfNow : ℚ) : ℚ × OneEuroFilter :=
  let freq1 := f.updateFreq timestamp
  let newLast : Option ℚ :=
    match timestamp with
    | some t => some t
    | none =>
      match f.lastTime with
      | some lt => some (lt + 1000 / freq1)
      | none => some perfNow
  let ed := f.dxFilter.filter (f.dValueOf value freq1) (alphaQ freq1 f.dCutoff)
  let xr := f.xFilter.filter value (alphaQ freq1 (f.cutoffOf value freq1))
  (xr.1, { f with freq := freq1, lastTime := newLast, xFilter := xr.2, dxFilter := ed.2 })

/-- OneEuroFilter.reset: clears both low-pass stages and the timestamp
memory (the adapted frequency estimate is kept, as in the code). -/
def OneEuroFilter.reset (f : OneEuroFilter) : OneEuroFilter :=
  { f with xFilter := f.xFilter.reset, dxFilter := f.dxFilter.reset, lastTime := none }

/-- LandmarkSmoother.smooth (bank level), channel by channel in order: a
nonzero input runs that channel's one-euro filter; a zero input forces the
output to 0 and resets the channel. -/
def LandmarkSmoother.smooth : List OneEuroFilter → List ℚ → Option ℚ → ℚ →
    List ℚ × List OneEuroFilter
  | [], _, _, _ => ([], [])
  | _ :: _, [], _, _ => ([], [])
  | f :: fs, v :: vs, ts, pn =>
    ((if v ≠ 0 then (f.filter v ts pn).1 else 0) :: (LandmarkSmoother.smooth fs vs ts pn).1,
     (if v ≠ 0 then (f.filter v ts pn).2 else f.reset) :: (LandmarkSmoother.smooth fs vs ts pn).2)

/-- Iterate OneEuroFilter.filter on a constant input value at the given
timestamp sequence (ms, naturals as produced by Date.now). -/
def runConst (f : OneEuroFilter) (v : ℚ) (ts : ℕ → ℕ) : ℕ → ℚ × OneEuroFilter
  | 0 => f.filter v (some ((ts 0 : ℕ) : ℚ)) 0
  | n + 1 => (runConst f v ts n).2.filter v (some ((ts (n + 1) : ℕ) : ℚ)) 0

/-! ## Concrete states used to instantiate the theorems -/

/-- A classifier output that is confidently "hello". -/
def probsHello : List ℚ := [mkRat 9 10, mkRat 1 20, mkRat 1 20]

/-- A part_005 pipeline in its initial gate state with a full frame window
(the frame contents are irrelevant to the gate). -/
def gateFresh : StabilityLstmPipeline := ⟨true, List.replicate 30 [], [], none, 0⟩

/-- A part_005 pipeline whose stability buffer holds a conflicting label. -/
def gateMixed : StabilityLstmPipeline := ⟨true, List.replicate 30 [], ["thanks"], none, 0⟩

/-- A part_005 pipeline that has just triggered "hello" at t = 10000 (its
stability buffer was cleared by the trigger). -/
def gateStale : StabilityLstmPipeline := ⟨true, List.replicate 30 [], [], some "hello", 10000⟩

/-- A detection result whose first pose landmark carries a NaN x value. -/
def nanResult : HolisticResults :=
  ⟨some [some ⟨JsNum.nan, JsNum.num 0, JsNum.num 0, some (JsNum.num 1)⟩], none, none, none⟩

/-- A part_004 pipeline that has just emitted "hello" at t = 10000, with a
full frame window. -/
def cooldownReady : CooldownLstmPipeline := ⟨true, List.replicate 30 [], "hello", 10000⟩

/-- A short concrete operation sequence on the shipped pipeline's window. -/
def opsAB : List BufOp := [BufOp.push [1], BufOp.push [2]]

/-! ## Helper lemmas -/

/-- The winning label is never the sentinel pushed for below-threshold
ticks. -/
theorem getD_classes_ne_searching (i : ℕ) (d : String) (hd : d = "undefined") :
    ACTION_CLASSES.getD i d ≠ "searching" := by
  subst hd
  rcases i with _ | _ | _ | n <;> simp [ACTION_CLASSES, List.getD]

/-- Sanitized entries are never NaN. -/
theorem cleanFeature_ne_nan (v : JsNum) : cleanFeature v ≠ JsNum.nan := by
  cases v <;> simp [cleanFeature, JsNum.isNaN]

/-- A freshly reset one-euro channel passes its next sample through
unchanged: the first sample after reset is returned exactly. -/
theorem reset_filter_fst (g : OneEuroFilter) (w : ℚ) (t2 : Option ℚ) (pn2 : ℚ) :
    ((g.reset).filter w t2 pn2).1 = w := by
  cases t2 <;> rfl

/-- The part_005 global cooldown: any predict call within 1500 ms of the
recorded lastTriggerTime returns null. -/
theorem gate_cooldown_none (g : StabilityLstmPipeline) (probs : List ℚ) (now : ℕ)
    (h : now - g.lastTriggerTime < 1500) :
    (g.predict probs now).1 = none := by
  unfold StabilityLstmPipeline.predict
  split <;> rfl

/-! ## C10 -/

/-- Claim C10: predict never mutates the temporal window: the state (and in
particular the frame buffer, its length and every stored vector) is
identical before and after a predict call, whether it returns an event or
null. -/
theorem C10_predict_preserves_window (s : ActionLstmPipeline) (probs : List ℚ) :
    (s.predict probs).2 = s ∧ ((s.predict probs).2).frameBuffer = s.frameBuffer := by
  have h : (s.predict probs).2 = s := by
    unfold ActionLstmPipeline.predict
    split
    · rfl
    · split <;> rfl
  exact ⟨h, by rw [h]⟩

/-! ## C4 -/

/-- Claim C4: a maximum class probability strictly below the confidence
threshold produces no event: the shipped predict returns null, and in the
part_005 gate the observed label for the tick is the sentinel "searching"
(exactly as if nothing had been detected) with a null result; any returned
event carries confidence at or above the threshold. -/
theorem C4_confidence_gate (s : ActionLstmPipeline) (g : StabilityLstmPipeline)
    (probs : List ℚ) (now : ℕ) :
    ((argmaxSrc probs).2 < CONFIDENCE_THRESHOLD → (s.predict probs).1 = none)
    ∧ (∀ ev, (s.predict probs).1 = some ev → CONFIDENCE_THRESHOLD ≤ ev.confidence)
    ∧ ((argmaxGate probs).2 < GATE_THRESHOLD →
        StabilityLstmPipeline.observedLabel probs = "searching"
        ∧ (g.predict probs now).1 = none) := by
  refine ⟨?_, ?_, ?_⟩
  · intro h
    unfold ActionLstmPipeline.predict
    split
    · rfl
    · rw [if_neg (not_le.mpr h)]
  · intro ev hev
    unfold ActionLstmPipeline.predict at hev
    split at hev
    · simp at hev
    · split at hev
      · rename_i hthr
        simp only [Prod.fst] at hev
        cases hev
        exact hthr
      · simp at hev
  · intro h
    constructor
    · unfold StabilityLstmPipeline.observedLabel
      rw [if_neg (not_le.mpr h)]
    · unfold StabilityLstmPipeline.predict
      split
      · rfl
      · split
        · rfl
        · rw [if_neg (fun hc => absurd hc.2 (not_le.mpr h))]

/-- Witness for C4 at a concrete below-threshold observation. -/
theorem C4_confidence_gate_witness :
    (ActionLstmPipeline.predict ⟨true, List.replicate 30 []⟩ [mkRat 1 2, mkRat 1 4, mkRat 1 4]).1 = none
    ∧ StabilityLstmPipeline.observedLabel [mkRat 1 2, mkRat 1 4, mkRat 1 4] = "searching"
    ∧ (gateFresh.predict [mkRat 1 2, mkRat 1 4, mkRat 1 4] 10000).1 = none := by
  refine ⟨?_, ?_, ?_⟩
  · exact (C4_confidence_gate ⟨true, List.replicate 30 []⟩ gateFresh
      [mkRat 1 2, mkRat 1 4, mkRat 1 4] 10000).1 (by decide)
  · exact ((C4_confidence_gate ⟨true, List.replicate 30 []⟩ gateFresh
      [mkRat 1 2, mkRat 1 4, mkRat 1 4] 10000).2.2 (by decide)).1
  · exact ((C4_confidence_gate ⟨true, List.replicate 30 []⟩ gateFresh
      [mkRat 1 2, mkRat 1 4, mkRat 1 4] 10000).2.2 (by decide)).2

/-! ## C6 -/

/-- Claim C6: after reset(), the very next filter(v, t) call returns
exactly v: no smoothing lag and no residual memory survive the reset. -/
theorem C6_reset_passthrough (f : OneEuroFilter) (v t pn : ℚ) :
    ((f.reset).filter v (some t) pn).1 = v :=
  reset_filter_fst f v (some t) pn

set_option maxRecDepth 8000

/-! ## C1 -/

/-- Claim C1 counterexample: after the consistency buffer has been cleared
(here: the pristine gate state, whose buffer is empty exactly as it is
right after a trigger clears it), a single above-threshold observation
already triggers an event, because the gate checks consistency over the
labels currently in the buffer rather than over K of them. -/
theorem C1_counterexample :
    gateFresh.stabilityBuffer = []
    ∧ (gateFresh.predict probsHello 10000).1 = some ⟨"hello", mkRat 9 10⟩ :=
  ⟨rfl, by decide⟩

/-- Claim C1 (amended): the gate emits only when every label currently in
the post-push consistency buffer equals the same above-threshold,
non-sentinel label; on a trigger the buffer is cleared and the trigger time
recorded, and any observation within the 1500 ms cooldown of a trigger
yields nothing (hence at most one event per such run); a window containing
a conflicting label yields nothing.  The buffer may however hold fewer than
K labels after a clear, so a single above-threshold frame can trigger. -/
theorem C1_gate_consistency (s : StabilityLstmPipeline) (probs : List ℚ) (now : ℕ) :
    (∀ ev s2, s.predict probs now = (some ev, s2) →
        GATE_THRESHOLD ≤ (argmaxGate probs).2
        ∧ ev.action = StabilityLstmPipeline.currentAction probs
        ∧ ev.action ≠ "searching"
        ∧ (∀ l ∈ observedBuffer s probs, l = ev.action)
        ∧ s2.stabilityBuffer = []
        ∧ s2.lastTriggerTime = now)
    ∧ ((∃ l ∈ observedBuffer s probs, l ≠ StabilityLstmPipeline.currentAction probs) →
        (s.predict probs now).1 = none)
    ∧ (∀ (g : StabilityLstmPipeline) (probs2 : List ℚ) (now2 : ℕ),
        now2 - g.lastTriggerTime < 1500 → (g.predict probs2 now2).1 = none) := by
  refine ⟨?_, ?_, fun g probs2 now2 h => gate_cooldown_none g probs2 now2 h⟩
  · intro ev s2 hp
    unfold StabilityLstmPipeline.predict at hp
    split at hp
    · simp at hp
    · split at hp
      · simp at hp
      · split at hp
        · rename_i hC
          split at hp
          · simp only [Prod.mk.injEq, Option.some.injEq] at hp
            obtain ⟨rfl, rfl⟩ := hp
            exact ⟨hC.2, rfl, getD_classes_ne_searching _ _ rfl, hC.1, rfl, rfl⟩
          · simp at hp
        · simp at hp
  · rintro ⟨l, hl, hne⟩
    unfold StabilityLstmPipeline.predict
    split
    · rfl
    · split
      · rfl
      · rw [if_neg fun hC => hne (hC.1 l hl)]

/-- Witness for the amended C1 at a concrete conflicting window. -/
theorem C1_gate_consistency_witness :
    (gateMixed.predict probsHello 10000).1 = none :=
  (C1_gate_consistency gateMixed probsHello 10000).2.1 ⟨"thanks", by decide, by decide⟩

/-! ## C8 -/

/-- pushFrame does not touch the trigger record. -/
theorem pushFrames_lastTriggerTime (fs : List (List JsNum)) :
    ∀ s : StabilityLstmPipeline, (s.pushFrames fs).lastTriggerTime = s.lastTriggerTime := by
  induction fs with
  | nil => intro s; rfl
  | cons fr rest ih => intro s; exact ih (s.pushFrame fr)

/-- Claim C8 counterexample: clearBuffer keeps the last trigger timestamp,
so after a reset the very next full window is still suppressed by the
global cooldown, unlike on a fresh pipeline where the same observation
triggers. -/
theorem C8_counterexample :
    gateStale.clearBuffer.lastTriggerTime = 10000
    ∧ ((gateStale.clearBuffer.pushFrames (List.replicate 30 [])).predict probsHello 11000).1 = none
    ∧ (gateFresh.predict probsHello 11000).1 = some ⟨"hello", mkRat 9 10⟩ :=
  ⟨rfl, by decide, by decide⟩

/-- Claim C8 (amended): clearBuffer empties the frame buffer and the
consistency ring buffer and clears the last-triggered label, but it retains
the timestamp of the last emission, so observations within 1500 ms of the
pre-reset trigger are still suppressed (the gating is not that of a fresh
pipeline). -/
theorem C8_clear_retains_cooldown (s : StabilityLstmPipeline) :
    s.clearBuffer.frameBuffer = []
    ∧ s.clearBuffer.stabilityBuffer = []
    ∧ s.clearBuffer.lastTriggeredAction = none
    ∧ s.clearBuffer.lastTriggerTime = s.lastTriggerTime
    ∧ ∀ (fs : List (List JsNum)) (probs : List ℚ) (now : ℕ),
        now - s.lastTriggerTime < 1500 →
        ((s.clearBuffer.pushFrames fs).predict probs now).1 = none := by
  refine ⟨rfl, rfl, rfl, rfl, ?_⟩
  intro fs probs now h
  apply gate_cooldown_none
  rw [pushFrames_lastTriggerTime]
  exact h

/-- Witness for the amended C8 at a concrete post-reset observation. -/
theorem C8_clear_retains_cooldown_witness :
    ((gateStale.clearBuffer.pushFrames (List.replicate 30 [])).predict probsHello 11000).1 = none :=
  (C8_clear_retains_cooldown gateStale).2.2.2.2 (List.replicate 30 []) probsHello 11000 (by decide)

/-! ## C9 -/

/-- Claim C9 counterexample: resultsToFeatures writes a NaN coordinate of a
present landmark into the feature vector unchanged, so the produced vector
can contain NaN. -/
theorem C9_counterexample : JsNum.nan ∈ resultsToFeatures nanResult := by decide

/-- Claim C9 (amended): resultsToFeatures zero-fills only absent groups,
absent points and undefined visibility, and passes NaN coordinates through;
the NaN-to-0 sanitization happens in the part_005 pushFrame, so every frame
stored in the classifier's window is NaN-free (assuming the frames already
stored are). -/
theorem C9_push_sanitizes (s : StabilityLstmPipeline) (features : List JsNum)
    (hclean : ∀ fr ∈ s.frameBuffer, ∀ x ∈ fr, x ≠ JsNum.nan) :
    (∀ x ∈ features.map cleanFeature, x ≠ JsNum.nan)
    ∧ ∀ fr ∈ (s.pushFrame features).frameBuffer, ∀ x ∈ fr, x ≠ JsNum.nan := by
  have h1 : ∀ x ∈ features.map cleanFeature, x ≠ JsNum.nan := by
    intro x hx
    rcases List.mem_map.mp hx with ⟨y, _, rfl⟩
    exact cleanFeature_ne_nan y
  refine ⟨h1, ?_⟩
  intro fr hfr
  have hb : fr ∈ s.frameBuffer ++ [features.map cleanFeature] := by
    unfold StabilityLstmPipeline.pushFrame at hfr
    by_cases hc : SEQUENCE_LENGTH < (s.frameBuffer ++ [features.map cleanFeature]).length
    · rw [if_pos hc] at hfr
      exact List.tail_subset _ hfr
    · rw [if_neg hc] at hfr
      exact hfr
  rcases List.mem_append.mp hb with h | h
  · exact hclean fr h
  · rw [List.mem_singleton.mp h]
    exact h1

/-- Witness for the amended C9 at a concrete NaN-carrying frame. -/
theorem C9_push_sanitizes_witness :
    (∀ x ∈ [JsNum.nan, JsNum.num 1].map cleanFeature, x ≠ JsNum.nan)
    ∧ ∀ fr ∈ (gateFresh.pushFrame [JsNum.nan, JsNum.num 1]).frameBuffer,
        ∀ x ∈ fr, x ≠ JsNum.nan :=
  C9_push_sanitizes gateFresh [JsNum.nan, JsNum.num 1] (by decide)

/-! ## C3 -/

/-- Appending to a nonempty list commutes with tail. -/
theorem tail_append_singleton {α : Type} (a : List α) (x : α) (h : a ≠ []) :
    (a ++ [x]).tail = a.tail ++ [x] := by
  cases a with
  | nil => exact absurd rfl h
  | cons y ys => rfl

/-- lastN keeps at most n elements. -/
theorem length_lastN {α : Type} (n : ℕ) (xs : List α) : (lastN n xs).length ≤ n := by
  simp only [lastN, List.length_drop]
  omega

/-- One pushFrame step keeps the window equal to the lastN of all pushes. -/
theorem pushFrame_lastN (s : ActionLstmPipeline) (xs : List (List ℚ)) (f : List ℚ)
    (h : s.frameBuffer = lastN SEQUENCE_LENGTH xs) :
    (s.pushFrame f).frameBuffer = lastN SEQUENCE_LENGTH (xs ++ [f]) := by
  have hpos : 0 < SEQUENCE_LENGTH := by norm_num [SEQUENCE_LENGTH]
  unfold ActionLstmPipeline.pushFrame
  simp only [h]
  rcases lt_or_ge xs.length SEQUENCE_LENGTH with hlt | hge
  · have h1 : lastN SEQUENCE_LENGTH xs = xs := by
      simp [lastN, Nat.sub_eq_zero_of_le hlt.le]
    have h2 : ¬ SEQUENCE_LENGTH < (xs ++ [f]).length := by
      simp only [List.length_append, List.length_singleton]
      omega
    rw [h1, if_neg h2]
    unfold lastN
    rw [List.length_append, List.length_singleton,
      Nat.sub_eq_zero_of_le (by omega), List.drop_zero]
  · have hlen : (lastN SEQUENCE_LENGTH xs).length = SEQUENCE_LENGTH := by
      simp only [lastN, List.length_drop]
      omega
    have hne : lastN SEQUENCE_LENGTH xs ≠ [] := by
      intro hnil
      rw [hnil] at hlen
      simp [SEQUENCE_LENGTH] at hlen
    have hcond : SEQUENCE_LENGTH < (lastN SEQUENCE_LENGTH xs ++ [f]).length := by
      simp [List.length_append, hlen]
    rw [if_pos hcond, tail_append_singleton _ _ hne]
    show (xs.drop (xs.length - SEQUENCE_LENGTH)).tail ++ [f] = lastN SEQUENCE_LENGTH (xs ++ [f])
    rw [List.tail_drop]
    unfold lastN
    rw [List.length_append, List.length_singleton]
    have he : xs.length + 1 - SEQUENCE_LENGTH = (xs.length - SEQUENCE_LENGTH) + 1 := by omega
    rw [he, List.drop_append_of_le_length (by omega)]

/-- Folding operations tracks the pushes-since-clear accumulator. -/
theorem runOps_tracks (ops : List BufOp) :
    ∀ (s : ActionLstmPipeline) (acc : List (List ℚ)),
      s.frameBuffer = lastN SEQUENCE_LENGTH acc →
      (ops.foldl ActionLstmPipeline.applyOp s).frameBuffer
        = lastN SEQUENCE_LENGTH (ops.foldl (fun acc2 op => match op with
            | BufOp.push f => acc2 ++ [f]
            | BufOp.clear => []) acc) := by
  induction ops with
  | nil => intro s acc h; simpa using h
  | cons op rest ih =>
    intro s acc h
    cases op with
    | push f =>
      simp only [List.foldl_cons]
      exact ih (s.pushFrame f) (acc ++ [f]) (pushFrame_lastN s acc f h)
    | clear =>
      simp only [List.foldl_cons]
      exact ih s.clearBuffer [] rfl

/-- Claim C3: the temporal window is a strict FIFO of capacity 30: for
every sequence of pushFrame and clearBuffer calls the buffer equals the at
most 30 most recent pushes since the last clear, in chronological order,
so it never holds more than 30 vectors; pushFrame appends at the tail and,
when the window is full, evicts exactly the head (oldest) vector; after
clearBuffer the length is 0. -/
theorem C3_window_fifo (ops : List BufOp) (s : ActionLstmPipeline) (f : List ℚ)
    (hlen : s.frameBuffer.length ≤ SEQUENCE_LENGTH) :
    (runOps ops).frameBuffer = lastN SEQUENCE_LENGTH (pushesSinceClear ops)
    ∧ (runOps ops).frameBuffer.length ≤ SEQUENCE_LENGTH
    ∧ (s.pushFrame f).frameBuffer
        = (if s.frameBuffer.length < SEQUENCE_LENGTH then s.frameBuffer ++ [f]
           else s.frameBuffer.tail ++ [f])
    ∧ s.clearBuffer.frameBuffer.length = 0 := by
  have htrack : (runOps ops).frameBuffer = lastN SEQUENCE_LENGTH (pushesSinceClear ops) :=
    runOps_tracks ops initialPipeline [] rfl
  refine ⟨htrack, ?_, ?_, rfl⟩
  · rw [htrack]
    exact length_lastN _ _
  · unfold ActionLstmPipeline.pushFrame
    rcases lt_or_ge s.frameBuffer.length SEQUENCE_LENGTH with hlt | hge
    · rw [if_pos hlt, if_neg (by simp only [List.length_append, List.length_singleton]; omega)]
    · have heq : s.frameBuffer.length = SEQUENCE_LENGTH := le_antisymm hlen hge
      have hne : s.frameBuffer ≠ [] := by
        intro hnil
        rw [hnil] at heq
        simp [SEQUENCE_LENGTH] at heq
      rw [if_neg (not_lt.mpr hge),
        if_pos (by simp only [List.length_append, List.length_singleton]; omega),
        tail_append_singleton _ _ hne]

/-- Witness for C3 at a concrete operation sequence and a concrete state. -/
theorem C3_window_fifo_witness :
    (runOps opsAB).frameBuffer = lastN SEQUENCE_LENGTH (pushesSinceClear opsAB)
    ∧ (runOps opsAB).frameBuffer.length ≤ SEQUENCE_LENGTH
    ∧ (ActionLstmPipeline.pushFrame ⟨false, [[3]]⟩ [4]).frameBuffer
        = (if ([[3]] : List (List ℚ)).length < SEQUENCE_LENGTH then [[3], [4]]
           else ([[3]] : List (List ℚ)).tail ++ [[4]])
    ∧ (ActionLstmPipeline.clearBuffer ⟨false, [[3]]⟩).frameBuffer.length = 0 :=
  C3_window_fifo opsAB ⟨false, [[3]]⟩ [4] (by decide)

/-! ## C5 -/

/-- The indexed behaviour of the bank-level smooth on zero channels. -/
theorem smooth_zero_channel (ts : Option ℚ) (pn : ℚ) :
    ∀ (filters : List OneEuroFilter) (features : List ℚ) (i : ℕ),
      i < filters.length → features.get? i = some 0 →
      (LandmarkSmoother.smooth filters features ts pn).1.get? i = some 0
      ∧ (LandmarkSmoother.smooth filters features ts pn).2.get? i
          = (filters.get? i).map OneEuroFilter.reset := by
  intro fl
  induction fl with
  | nil =>
    intro fe i hi _
    simp at hi
  | cons f fs ih =>
    intro fe i hi hz
    cases fe with
    | nil => simp at hz
    | cons v vs =>
      cases i with
      | zero =>
        have hv : v = 0 := by simpa using hz
        subst hv
        simp [LandmarkSmoother.smooth]
      | succ n =>
        have hn : n < fs.length := by simpa using hi
        have hz2 : vs.get? n = some 0 := by simpa using hz
        have hrec := ih vs n hn hz2
        simpa [LandmarkSmoother.smooth] using hrec

/-- Claim C5: whenever the incoming raw value of a channel is exactly zero,
the bank-level smooth forces that channel's output to zero and resets that
channel's filter memory (both low-pass stages and the timestamp), whatever
its prior state; and a reset channel treats its next sample as a first-ever
sample, returning it exactly. -/
theorem C5_zero_resets_channel (filters : List OneEuroFilter) (features : List ℚ)
    (ts : Option ℚ) (pn : ℚ) (i : ℕ) (hi : i < filters.length)
    (hz : features.get? i = some 0) :
    (LandmarkSmoother.smooth filters features ts pn).1.get? i = some 0
    ∧ (LandmarkSmoother.smooth filters features ts pn).2.get? i
        = (filters.get? i).map OneEuroFilter.reset
    ∧ ∀ (g : OneEuroFilter) (w : ℚ) (t2 : Option ℚ) (pn2 : ℚ),
        ((g.reset).filter w t2 pn2).1 = w := by
  obtain ⟨h1, h2⟩ := smooth_zero_channel ts pn filters features i hi hz
  exact ⟨h1, h2, fun g w t2 pn2 => reset_filter_fst g w t2 pn2⟩

/-- Witness for C5 at a concrete one-channel bank fed a zero. -/
theorem C5_zero_resets_channel_witness :
    (LandmarkSmoother.smooth [OneEuroFilter.init 30 1 (mkRat 7 1000) 1] [0] none 0).1.get? 0
        = some 0
    ∧ (LandmarkSmoother.smooth [OneEuroFilter.init 30 1 (mkRat 7 1000) 1] [0] none 0).2.get? 0
        = (([OneEuroFilter.init 30 1 (mkRat 7 1000) 1] : List OneEuroFilter).get? 0).map
            OneEuroFilter.reset
    ∧ ∀ (g : OneEuroFilter) (w : ℚ) (t2 : Option ℚ) (pn2 : ℚ),
        ((g.reset).filter w t2 pn2).1 = w :=
  C5_zero_resets_channel [OneEuroFilter.init 30 1 (mkRat 7 1000) 1] [0] none 0 0
    (by decide) (by decide)

/-! ## C2 -/

/-- Every part_004 predict call either leaves the state untouched and
returns null, or returns an event and records exactly its label and time. -/
theorem cooldown_predict_cases (s : CooldownLstmPipeline) (probs : List ℚ) (now : ℕ) :
    ((s.predict probs now).1 = none ∧ (s.predict probs now).2 = s)
    ∨ (∃ ev, (s.predict probs now).1 = some ev
        ∧ (s.predict probs now).2.lastDetectedAction = ev.action
        ∧ (s.predict probs now).2.lastDetectionTime = now) := by
  unfold CooldownLstmPipeline.predict
  split
  · exact Or.inl ⟨rfl, rfl⟩
  · split
    · split
      · exact Or.inl ⟨rfl, rfl⟩
      · exact Or.inr ⟨⟨_, _⟩, rfl, rfl, rfl⟩
    · exact Or.inl ⟨rfl, rfl⟩

/-- Along any observation trace, the part_004 anti-repeat record equals the
label and time of the most recent emitted event. -/
theorem runCooldown_lastRec (obs : List Obs) :
    ∀ s : CooldownLstmPipeline,
      ((runCooldown s obs).2.lastDetectedAction, (runCooldown s obs).2.lastDetectionTime)
        = lastRec (s.lastDetectedAction, s.lastDetectionTime) (runCooldown s obs).1 := by
  induction obs with
  | nil => intro s; rfl
  | cons o rest ih =>
    intro s
    rcases cooldown_predict_cases s o.probs o.time with ⟨h1, h2⟩ | ⟨ev, h1, h2, h3⟩
    · simp only [runCooldown, h1]
      rw [h2]
      exact ih s
    · simp only [runCooldown, h1, lastRec]
      have hrec := ih (s.predict o.probs o.time).2
      rw [h2, h3] at hrec
      exact hrec

/-- Claim C2: for an eligible (above-threshold) observation of label L, the
part_004 gate suppresses the trigger exactly when L equals the recorded
last-emitted label and the observation falls within the cooldown of the
recorded emission time (returning null with the state unchanged); once the
cooldown has elapsed, or a different label was emitted in between (the
record tracks the most recent emission along any trace, and every
above-threshold observation of a different label is emitted and recorded),
L is emitted again and re-recorded. -/
theorem C2_same_label_cooldown (s : CooldownLstmPipeline) (probs : List ℚ) (now : ℕ)
    (hready : s.modelLoaded = true)
    (hfull : ¬ s.frameBuffer.length < SEQUENCE_LENGTH)
    (hconf : P4_CONFIDENCE_THRESHOLD ≤ (argmaxSrc probs).2) :
    ((ACTION_CLASSES.getD (argmaxSrc probs).1 "undefined" = s.lastDetectedAction
        ∧ now - s.lastDetectionTime < COOLDOWN_MS) →
      s.predict probs now = (none, s))
    ∧ ((ACTION_CLASSES.getD (argmaxSrc probs).1 "undefined" ≠ s.lastDetectedAction
        ∨ COOLDOWN_MS ≤ now - s.lastDetectionTime) →
      (s.predict probs now).1
          = some ⟨ACTION_CLASSES.getD (argmaxSrc probs).1 "undefined", (argmaxSrc probs).2⟩
        ∧ (s.predict probs now).2.lastDetectedAction
            = ACTION_CLASSES.getD (argmaxSrc probs).1 "undefined"
        ∧ (s.predict probs now).2.lastDetectionTime = now)
    ∧ (∀ (s0 : CooldownLstmPipeline) (obs : List Obs),
        ((runCooldown s0 obs).2.lastDetectedAction, (runCooldown s0 obs).2.lastDetectionTime)
          = lastRec (s0.lastDetectedAction, s0.lastDetectionTime) (runCooldown s0 obs).1) := by
  have hgate : ¬ (¬ s.modelLoaded ∨ s.frameBuffer.length < SEQUENCE_LENGTH) :=
    not_or.mpr ⟨by simp [hready], hfull⟩
  refine ⟨?_, ?_, fun s0 obs => runCooldown_lastRec obs s0⟩
  · intro hc
    unfold CooldownLstmPipeline.predict
    rw [if_neg hgate, if_pos hconf, if_pos hc]
  · intro hc
    unfold CooldownLstmPipeline.predict
    rw [if_neg hgate, if_pos hconf, if_neg ?hinner]
    case hinner =>
      rintro ⟨h1, h2⟩
      rcases hc with h | h
      · exact h h1
      · exact absurd h2 (not_lt.mpr h)
    exact ⟨rfl, rfl, rfl⟩

/-- Witness for C2: a repeated "hello" 1000 ms after its emission is
suppressed with the state unchanged. -/
theorem C2_same_label_cooldown_witness :
    cooldownReady.predict probsHello 11000 = (none, cooldownReady) :=
  (C2_same_label_cooldown cooldownReady probsHello 11000 rfl (by decide) (by decide)).1
    ⟨by decide, by decide⟩

/-! ## C7 -/

/-- The Math.PI constant is positive. -/
theorem mathPI_pos : 0 < mathPI := by norm_num [mathPI]

/-- Closed form of the smoothing coefficient for positive inputs. -/
theorem alphaQ_eq (freq c : ℚ) (hf : 0 < freq) (hc : 0 < c) :
    alphaQ freq c = (2 * mathPI * c) / (2 * mathPI * c + freq) := by
  have hT : 0 < 2 * mathPI * c := mul_pos (mul_pos two_pos mathPI_pos) hc
  show (1 : ℚ) / (1 + 1 / (2 * mathPI * c) / (1 / freq)) = 2 * mathPI * c / (2 * mathPI * c + freq)
  have h1 : (1 : ℚ) / (2 * mathPI * c) / (1 / freq) = freq / (2 * mathPI * c) := by
    have hne := hf.ne'
    field_simp
  rw [h1, one_add_div hT.ne', one_div_div]

/-- For positive cutoff and frequency the coefficient is positive. -/
theorem alphaQ_pos (freq c : ℚ) (hf : 0 < freq) (hc : 0 < c) : 0 < alphaQ freq c := by
  have hT : 0 < 2 * mathPI * c := mul_pos (mul_pos two_pos mathPI_pos) hc
  rw [alphaQ_eq freq c hf hc]
  exact div_pos hT (by linarith)

/-- For positive cutoff and frequency the coefficient is below one. -/
theorem alphaQ_lt_one (freq c : ℚ) (hf : 0 < freq) (hc : 0 < c) : alphaQ freq c < 1 := by
  have hT : 0 < 2 * mathPI * c := mul_pos (mul_pos two_pos mathPI_pos) hc
  rw [alphaQ_eq freq c hf hc, div_lt_one (by linarith)]
  linarith

/-- The coefficient at the minimum cutoff and the maximal frequency (1000
Hz, one sample per ms) bounds every coefficient the filter can use from
below. -/
theorem alphaMin_le_alphaQ (m c freq : ℚ) (hm : 0 < m) (hmc : m ≤ c)
    (hf : 0 < freq) (hf1 : freq ≤ 1000) :
    alphaQ 1000 m ≤ alphaQ freq c := by
  have hc : 0 < c := lt_of_lt_of_le hm hmc
  have hTm : 0 < 2 * mathPI * m := mul_pos (mul_pos two_pos mathPI_pos) hm
  have hTc : 0 < 2 * mathPI * c := mul_pos (mul_pos two_pos mathPI_pos) hc
  rw [alphaQ_eq 1000 m (by norm_num) hm, alphaQ_eq freq c hf hc,
    div_le_div_iff₀ (by linarith) (by linarith)]
  have key : m * freq ≤ c * 1000 := mul_le_mul hmc hf1 hf.le hc.le
  have key2 : 2 * mathPI * (m * freq) ≤ 2 * mathPI * (c * 1000) :=
    mul_le_mul_of_nonneg_left key (by linarith [mathPI_pos])
  nlinarith [key2]

/-- A low-pass stage with empty memory passes the sample through. -/
theorem lowPass_filter_none (f : LowPassFilter) (hy : f.y = none) (v a : ℚ) :
    f.filter v a = (v, ⟨some v, some v⟩) := by
  unfold LowPassFilter.filter
  rw [hy]

/-- A low-pass stage with memory w computes the convex combination. -/
theorem lowPass_filter_some (f : LowPassFilter) (w : ℚ) (hy : f.y = some w)
    (hs : f.s = some w) (v a : ℚ) :
    f.filter v a = (a * v + (1 - a) * w,
      ⟨some (a * v + (1 - a) * w), some (a * v + (1 - a) * w)⟩) := by
  unfold LowPassFilter.filter
  rw [hy, hs]
  simp

/-- The recomputed sampling frequency stays in (0, 1000] when timestamps
advance by at least one millisecond. -/
theorem updateFreq_bounds (f : OneEuroFilter) (t : ℚ)
    (hf0 : 0 < f.freq) (hf1 : f.freq ≤ 1000)
    (hlast : ∀ L, f.lastTime = some L → L + 1 ≤ t) :
    0 < f.updateFreq (some t) ∧ f.updateFreq (some t) ≤ 1000 := by
  unfold OneEuroFilter.updateFreq
  cases hl : f.lastTime with
  | none => exact ⟨hf0, hf1⟩
  | some L =>
    have hL := hlast L hl
    have hdt : 0 < (t - L) / 1000 := div_pos (by linarith) (by norm_num)
    dsimp only
    rw [if_pos hdt]
    refine ⟨one_div_pos.mpr hdt, ?_⟩
    rw [div_le_iff₀ hdt]
    have he : (1000 : ℚ) * ((t - L) / 1000) = t - L := by ring
    rw [he]
    linarith

/-- The adaptive cutoff never falls below the minimum cutoff. -/
theorem minCutoff_le_cutoffOf (g : OneEuroFilter) (v freq1 : ℚ) (hb : 0 ≤ g.beta) :
    g.minCutoff ≤ g.cutoffOf v freq1 :=
  le_add_of_nonneg_right (mul_nonneg hb (abs_nonneg _))

/-- The one-euro filter step, written out. -/
theorem oneEuro_filter_eq (g : OneEuroFilter) (v t pn : ℚ) :
    g.filter v (some t) pn
      = ((g.xFilter.filter v
            (alphaQ (g.updateFreq (some t)) (g.cutoffOf v (g.updateFreq (some t))))).1,
         { g with freq := g.updateFreq (some t), lastTime := some t,
                  xFilter := (g.xFilter.filter v
                    (alphaQ (g.updateFreq (some t)) (g.cutoffOf v (g.updateFreq (some t))))).2,
                  dxFilter := (g.dxFilter.filter (g.dValueOf v (g.updateFreq (some t)))
                    (alphaQ (g.updateFreq (some t)) g.dCutoff)).2 }) := rfl

/-- One filter step from a well-formed state: the parameters survive, the
frequency stays in (0, 1000], the value stage records the output, and the
distance of the output to the input shrinks by at least the worst-case
factor. -/
theorem oneEuro_step (g : OneEuroFilter) (v t pn : ℚ)
    (hf0 : 0 < g.freq) (hf1 : g.freq ≤ 1000)
    (hm : 0 < g.minCutoff) (hb : 0 ≤ g.beta)
    (hys : g.xFilter.y = g.xFilter.s)
    (hlast : ∀ L, g.lastTime = some L → L + 1 ≤ t) :
    0 < (g.filter v (some t) pn).2.freq
    ∧ (g.filter v (some t) pn).2.freq ≤ 1000
    ∧ (g.filter v (some t) pn).2.minCutoff = g.minCutoff
    ∧ (g.filter v (some t) pn).2.beta = g.beta
    ∧ (g.filter v (some t) pn).2.xFilter.y = some ((g.filter v (some t) pn).1)
    ∧ (g.filter v (some t) pn).2.xFilter.s = some ((g.filter v (some t) pn).1)
    ∧ (g.filter v (some t) pn).2.lastTime = some t
    ∧ |(g.filter v (some t) pn).1 - v|
        ≤ (1 - alphaQ 1000 g.minCutoff) * |(g.xFilter.y.getD v) - v| := by
  obtain ⟨hF0, hF1⟩ := updateFreq_bounds g t hf0 hf1 hlast
  have hCm : g.minCutoff ≤ g.cutoffOf v (g.updateFreq (some t)) :=
    minCutoff_le_cutoffOf g v _ hb
  have hC0 : 0 < g.cutoffOf v (g.updateFreq (some t)) := lt_of_lt_of_le hm hCm
  have hA0 := alphaQ_pos _ _ hF0 hC0
  have hA1 := alphaQ_lt_one _ _ hF0 hC0
  have hAmin := alphaMin_le_alphaQ g.minCutoff _ _ hm hCm hF0 hF1
  rw [oneEuro_filter_eq]
  cases hxy : g.xFilter.y with
  | none =>
    rw [lowPass_filter_none g.xFilter hxy]
    refine ⟨hF0, hF1, rfl, rfl, rfl, rfl, rfl, ?_⟩
    simp
  | some w =>
    have hs : g.xFilter.s = some w := by rw [← hys, hxy]
    rw [lowPass_filter_some g.xFilter w hxy hs]
    refine ⟨hF0, hF1, rfl, rfl, rfl, rfl, rfl, ?_⟩
    simp only [Option.getD_some]
    have he : alphaQ (g.updateFreq (some t)) (g.cutoffOf v (g.updateFreq (some t))) * v
        + (1 - alphaQ (g.updateFreq (some t)) (g.cutoffOf v (g.updateFreq (some t)))) * w - v
        = (1 - alphaQ (g.updateFreq (some t)) (g.cutoffOf v (g.updateFreq (some t)))) * (w - v) := by
      ring
    rw [he, abs_mul, abs_of_nonneg (by linarith :
      (0:ℚ) ≤ 1 - alphaQ (g.updateFreq (some t)) (g.cutoffOf v (g.updateFreq (some t))))]
    exact mul_le_mul_of_nonneg_right (by linarith) (abs_nonneg _)

/-- The invariant along a constant-input run at strictly increasing integer
timestamps: parameters survive, the frequency estimate stays in (0, 1000],
the value stage remembers the last output, and the output's distance to the
input decays geometrically. -/
theorem runConst_inv (f : OneEuroFilter) (v : ℚ) (ts : ℕ → ℕ)
    (hts : StrictMono ts) (hf0 : 0 < f.freq) (hf1 : f.freq ≤ 1000)
    (hm : 0 < f.minCutoff) (hb : 0 ≤ f.beta)
    (hys : f.xFilter.y = f.xFilter.s)
    (hlast : ∀ L : ℚ, f.lastTime = some L → L + 1 ≤ ((ts 0 : ℕ) : ℚ)) :
    ∀ n, 0 < (runConst f v ts n).2.freq
      ∧ (runConst f v ts n).2.freq ≤ 1000
      ∧ (runConst f v ts n).2.minCutoff = f.minCutoff
      ∧ (runConst f v ts n).2.beta = f.beta
      ∧ (runConst f v ts n).2.xFilter.y = some ((runConst f v ts n).1)
      ∧ (runConst f v ts n).2.xFilter.s = some ((runConst f v ts n).1)
      ∧ (runConst f v ts n).2.lastTime = some ((ts n : ℕ) : ℚ)
      ∧ |(runConst f v ts n).1 - v|
          ≤ (1 - alphaQ 1000 f.minCutoff) ^ (n + 1) * |(f.xFilter.y.getD v) - v| := by
  intro n
  induction n with
  | zero =>
    have h := oneEuro_step f v ((ts 0 : ℕ) : ℚ) 0 hf0 hf1 hm hb hys hlast
    refine ⟨h.1, h.2.1, h.2.2.1, h.2.2.2.1, h.2.2.2.2.1, h.2.2.2.2.2.1, h.2.2.2.2.2.2.1, ?_⟩
    rw [pow_one]
    exact h.2.2.2.2.2.2.2
  | succ n ihn =>
    obtain ⟨ih0, ih1, ihmc, ihb2, ihy, ihs, ihlt, ihd⟩ := ihn
    have hnext : ∀ L : ℚ, (runConst f v ts n).2.lastTime = some L
        → L + 1 ≤ ((ts (n + 1) : ℕ) : ℚ) := by
      intro L hL
      rw [ihlt] at hL
      obtain rfl : ((ts n : ℕ) : ℚ) = L := by injection hL
      exact_mod_cast Nat.succ_le_of_lt (hts (Nat.lt_succ_self n))
    have hstep := oneEuro_step (runConst f v ts n).2 v ((ts (n + 1) : ℕ) : ℚ) 0 ih0 ih1
      (by rw [ihmc]; exact hm) (by rw [ihb2]; exact hb) (by rw [ihy, ihs]) hnext
    refine ⟨hstep.1, hstep.2.1, hstep.2.2.1.trans ihmc, hstep.2.2.2.1.trans ihb2,
      hstep.2.2.2.2.1, hstep.2.2.2.2.2.1, hstep.2.2.2.2.2.2.1, ?_⟩
    have hd1 := hstep.2.2.2.2.2.2.2
    rw [ihmc] at hd1
    rw [ihy] at hd1
    simp only [Option.getD_some] at hd1
    have hr0 : 0 ≤ 1 - alphaQ 1000 f.minCutoff := by
      have := alphaQ_lt_one 1000 f.minCutoff (by norm_num) hm
      linarith
    calc |(runConst f v ts (n + 1)).1 - v|
        ≤ (1 - alphaQ 1000 f.minCutoff) * |(runConst f v ts n).1 - v| := hd1
      _ ≤ (1 - alphaQ 1000 f.minCutoff)
            * ((1 - alphaQ 1000 f.minCutoff) ^ (n + 1) * |(f.xFilter.y.getD v) - v|) :=
          mul_le_mul_of_nonneg_left ihd hr0
      _ = (1 - alphaQ 1000 f.minCutoff) ^ (n + 1 + 1) * |(f.xFilter.y.getD v) - v| := by
          ring

/-- Claim C7: feeding a constant value v at strictly increasing integer
(ms) timestamps to a one-euro channel whose parameters are positive, the
smoothing coefficient is always strictly between 0 and 1, each successive
sample shrinks the distance of the output to v by at least the fixed
worst-case factor, and the output converges to v (the distance tends to
0, i.e. steady-state gain 1). -/
theorem C7_constant_input_converges (f : OneEuroFilter) (v : ℚ) (ts : ℕ → ℕ)
    (hts : StrictMono ts) (hf0 : 0 < f.freq) (hf1 : f.freq ≤ 1000)
    (hm : 0 < f.minCutoff) (hb : 0 ≤ f.beta)
    (hys : f.xFilter.y = f.xFilter.s)
    (hlast : ∀ L : ℚ, f.lastTime = some L → L + 1 ≤ ((ts 0 : ℕ) : ℚ)) :
    (∀ (g : OneEuroFilter) (c : ℚ), 0 < g.freq → 0 < c → 0 < g.alpha c ∧ g.alpha c < 1)
    ∧ (∀ n, |(runConst f v ts (n + 1)).1 - v|
          ≤ (1 - alphaQ 1000 f.minCutoff) * |(runConst f v ts n).1 - v|)
    ∧ Filter.Tendsto (fun n => |(((runConst f v ts n).1 : ℚ) : ℝ) - ((v : ℚ) : ℝ)|)
        Filter.atTop (nhds 0) := by
  have inv := runConst_inv f v ts hts hf0 hf1 hm hb hys hlast
  have halpha : ∀ (g : OneEuroFilter) (c : ℚ),
      0 < g.freq → 0 < c → 0 < g.alpha c ∧ g.alpha c < 1 :=
    fun g c h1 h2 => ⟨alphaQ_pos _ _ h1 h2, alphaQ_lt_one _ _ h1 h2⟩
  have hstepbound : ∀ n, |(runConst f v ts (n + 1)).1 - v|
      ≤ (1 - alphaQ 1000 f.minCutoff) * |(runConst f v ts n).1 - v| := by
    intro n
    obtain ⟨ih0, ih1, ihmc, ihb2, ihy, ihs, ihlt, _⟩ := inv n
    have hnext : ∀ L : ℚ, (runConst f v ts n).2.lastTime = some L
        → L + 1 ≤ ((ts (n + 1) : ℕ) : ℚ) := by
      intro L hL
      rw [ihlt] at hL
      obtain rfl : ((ts n : ℕ) : ℚ) = L := by injection hL
      exact_mod_cast Nat.succ_le_of_lt (hts (Nat.lt_succ_self n))
    have hstep := oneEuro_step (runConst f v ts n).2 v ((ts (n + 1) : ℕ) : ℚ) 0 ih0 ih1
      (by rw [ihmc]; exact hm) (by rw [ihb2]; exact hb) (by rw [ihy, ihs]) hnext
    have hd1 := hstep.2.2.2.2.2.2.2
    rw [ihmc] at hd1
    rw [ihy] at hd1
    simpa only [Option.getD_some] using hd1
  refine ⟨halpha, hstepbound, ?_⟩
  have hr0 : 0 ≤ 1 - alphaQ 1000 f.minCutoff := by
    have := alphaQ_lt_one 1000 f.minCutoff (by norm_num) hm
    linarith
  have hr1 : 1 - alphaQ 1000 f.minCutoff < 1 := by
    have := alphaQ_pos 1000 f.minCutoff (by norm_num) hm
    linarith
  have hgeo : Filter.Tendsto
      (fun n : ℕ => ((1 - alphaQ 1000 f.minCutoff : ℚ) : ℝ) ^ (n + 1)
        * ((|f.xFilter.y.getD v - v| : ℚ) : ℝ)) Filter.atTop (nhds 0) := by
    have h0 : (0:ℝ) ≤ ((1 - alphaQ 1000 f.minCutoff : ℚ) : ℝ) := by exact_mod_cast hr0
    have h1 : ((1 - alphaQ 1000 f.minCutoff : ℚ) : ℝ) < 1 := by exact_mod_cast hr1
    have hpow := tendsto_pow_atTop_nhds_zero_of_lt_one h0 h1
    have hshift := hpow.comp (Filter.tendsto_add_atTop_nat 1)
    simpa using hshift.mul_const ((|f.xFilter.y.getD v - v| : ℚ) : ℝ)
  apply squeeze_zero (fun n => abs_nonneg _) ?_ hgeo
  intro n
  obtain ⟨_, _, _, _, _, _, _, hd⟩ := inv n
  calc |(((runConst f v ts n).1 : ℚ) : ℝ) - ((v : ℚ) : ℝ)|
      = ((|(runConst f v ts n).1 - v| : ℚ) : ℝ) := by push_cast; rfl
    _ ≤ (((1 - alphaQ 1000 f.minCutoff) ^ (n + 1) * |(f.xFilter.y.getD v) - v| : ℚ) : ℝ) := by
        exact_mod_cast hd
    _ = ((1 - alphaQ 1000 f.minCutoff : ℚ) : ℝ) ^ (n + 1)
          * ((|f.xFilter.y.getD v - v| : ℚ) : ℝ) := by push_cast; ring

/-- Witness for C7 at a freshly constructed filter with the source's
parameters, fed the constant 5 at timestamps 0, 1, 2, ... -/
theorem C7_constant_input_converges_witness :
    (∀ (g : OneEuroFilter) (c : ℚ), 0 < g.freq → 0 < c → 0 < g.alpha c ∧ g.alpha c < 1)
    ∧ (∀ n, |(runConst (OneEuroFilter.init 30 1 (mkRat 7 1000) 1) 5 (fun k => k) (n + 1)).1 - 5|
          ≤ (1 - alphaQ 1000 (OneEuroFilter.init 30 1 (mkRat 7 1000) 1).minCutoff)
            * |(runConst (OneEuroFilter.init 30 1 (mkRat 7 1000) 1) 5 (fun k => k) n).1 - 5|)
    ∧ Filter.Tendsto
        (fun n => |(((runConst (OneEuroFilter.init 30 1 (mkRat 7 1000) 1) 5 (fun k => k) n).1 : ℚ) : ℝ)
          - ((5 : ℚ) : ℝ)|) Filter.atTop (nhds 0) :=
  C7_constant_input_converges (OneEuroFilter.init 30 1 (mkRat 7 1000) 1) 5 (fun k => k)
    (fun _ _ h => h) (by decide) (by decide) (by decide) (by decide) rfl
    (fun L h => Option.noConfusion h)
